import Mathlib

/-!
Verification of the grading pipeline of canvas-speed-grader.

The definitions below are a shallow embedding of the Python code in
src/api/services/grading_service.py and src/api/main.py. Numbers that the
Python code handles as ints/floats are modelled as rationals, JSON values
parsed by the json module are modelled by the inductive type Json, and
Python dicts are modelled as association lists whose insert operation
overwrites an existing key in place and otherwise appends, matching the
insertion-order semantics of Python dicts. Fallible Python calls (network,
filesystem, model clients) are modelled as Except values supplied by an
environment, and exceptions raised by embedded code are modelled as
Except.error results.
-/

/-- A JSON value as produced by json.loads: null, booleans, numbers
(modelled as rationals), strings, arrays and objects. Objects keep their
fields as an association list in insertion order, as Python dicts do. -/
inductive Json where
  | null
  | bool (b : Bool)
  | num (q : Rat)
  | str (s : String)
  | arr (elems : List Json)
  | obj (fields : List (String × Json))

/-- Python dict assignment d[k] = v on an association list: overwrite the
first entry with key k in place, otherwise append the new entry. -/
def dictInsert {α : Type} : List (String × α) → String → α → List (String × α)
  | [], k, v => [(k, v)]
  | (k', v') :: rest, k, v =>
    if k' = k then (k, v) :: rest else (k', v') :: dictInsert rest k v

/-- Whitespace characters accepted between JSON tokens by the json module. -/
def jsonWs (c : Char) : Bool :=
  c = ' ' || c = '\t' || c = '\n' || c = '\r'

/-- Drop leading JSON whitespace. -/
def skipWs (cs : List Char) : List Char :=
  cs.dropWhile jsonWs

/-- Numeric value of a list of decimal digit characters. -/
def digitsToNat (ds : List Char) : Nat :=
  ds.foldl (fun n c => 10 * n + (c.toNat - 48)) 0

/-- Value of a hexadecimal digit character, if it is one. -/
def hexVal (c : Char) : Option Nat :=
  if '0' ≤ c ∧ c ≤ '9' then some (c.toNat - 48)
  else if 'a' ≤ c ∧ c ≤ 'f' then some (c.toNat - 87)
  else if 'A' ≤ c ∧ c ≤ 'F' then some (c.toNat - 55)
  else none

/-- Parse the digits of a JSON integer part after an optional sign:
either a single 0, or a nonzero digit followed by more digits. Returns the
digit characters and the rest of the input. -/
def pIntDigits : List Char → Option (List Char × List Char)
  | '0' :: rest => some (['0'], rest)
  | c :: rest =>
    if c.isDigit ∧ c ≠ '0' then
      some (c :: rest.takeWhile Char.isDigit, rest.dropWhile Char.isDigit)
    else none
  | [] => none

/-- Parse a JSON number literal at the head of the input, following the
grammar used by the json module: optional minus sign, integer part without
leading zeros, optional fraction, optional exponent. The nonstandard
NaN/Infinity extension of the Python json module is not modelled. -/
def pNumber (cs : List Char) : Option (Json × List Char) :=
  let (neg, cs1) := match cs with
    | '-' :: rest => (true, rest)
    | _ => (false, cs)
  match pIntDigits cs1 with
  | none => none
  | some (ids, cs2) =>
    let i : Rat := (digitsToNat ids : Nat)
    let fracStep : Option (Rat × List Char) := match cs2 with
      | '.' :: rest =>
        let fds := rest.takeWhile Char.isDigit
        if fds = [] then none
        else some (i + (digitsToNat fds : Rat) / ((10 : Rat) ^ fds.length),
          rest.dropWhile Char.isDigit)
      | _ => some (i, cs2)
    match fracStep with
    | none => none
    | some (base, cs3) =>
      let expStep : Option (Rat × List Char) := match cs3 with
        | 'e' :: rest => some (1, rest)
        | 'E' :: rest => some (1, rest)
        | _ => none
      match expStep with
      | none => some (.num (if neg then -base else base), cs3)
      | some (_, cs4) =>
        let (esign, cs5) := match cs4 with
          | '+' :: rest => ((1 : Int), rest)
          | '-' :: rest => ((-1 : Int), rest)
          | _ => ((1 : Int), cs4)
        let eds := cs5.takeWhile Char.isDigit
        if eds = [] then none
        else
          let e := digitsToNat eds
          let v := if esign = 1 then base * (10 : Rat) ^ e else base / (10 : Rat) ^ e
          some (.num (if neg then -v else v), cs5.dropWhile Char.isDigit)

/-- Parse the body of a JSON string literal after the opening quote,
consuming up to and including the closing quote. Escape sequences follow
the json module; surrogate-pair joining of consecutive escapes is not
modelled (each escape yields one scalar value). -/
def pString : Nat → List Char → Option (String × List Char)
  | 0, _ => none
  | _ + 1, [] => none
  | fuel + 1, c :: rest =>
    if c = '"' then some ("", rest)
    else if c = '\\' then
      match rest with
      | [] => none
      | e :: rest2 =>
        let esc : Option (Char × List Char) :=
          if e = '"' then some ('"', rest2)
          else if e = '\\' then some ('\\', rest2)
          else if e = '/' then some ('/', rest2)
          else if e = 'b' then some ('\x08', rest2)
          else if e = 'f' then some ('\x0C', rest2)
          else if e = 'n' then some ('\n', rest2)
          else if e = 'r' then some ('\r', rest2)
          else if e = 't' then some ('\t', rest2)
          else if e = 'u' then
            match rest2 with
            | h1 :: h2 :: h3 :: h4 :: rest3 =>
              match hexVal h1, hexVal h2, hexVal h3, hexVal h4 with
              | some a, some b, some c', some d =>
                some (Char.ofNat (((a * 16 + b) * 16 + c') * 16 + d), rest3)
              | _, _, _, _ => none
            | _ => none
          else none
        match esc with
        | none => none
        | some (ch, rest') =>
          match pString fuel rest' with
          | some (s, r) => some (ch.toString ++ s, r)
          | none => none
    else if c.toNat < 32 then none
    else
      match pString fuel rest with
      | some (s, r) => some (c.toString ++ s, r)
      | none => none

mutual

/-- Parse a JSON value at the head of the input, skipping leading
whitespace, as the json module scanner does. -/
def pValue : Nat → List Char → Option (Json × List Char)
  | 0, _ => none
  | fuel + 1, cs =>
    match skipWs cs with
    | '{' :: rest => pObj fuel rest
    | '[' :: rest => pArr fuel rest
    | '"' :: rest =>
      match pString fuel rest with
      | some (s, r) => some (.str s, r)
      | none => none
    | 't' :: 'r' :: 'u' :: 'e' :: rest => some (.bool true, rest)
    | 'f' :: 'a' :: 'l' :: 's' :: 'e' :: rest => some (.bool false, rest)
    | 'n' :: 'u' :: 'l' :: 'l' :: rest => some (.null, rest)
    | other => pNumber other

/-- Parse the members of a JSON object after the opening brace. Duplicate
keys overwrite earlier ones, as they do in a Python dict. -/
def pObj : Nat → List Char → Option (Json × List Char)
  | 0, _ => none
  | fuel + 1, cs =>
    match skipWs cs with
    | '}' :: rest => some (.obj [], rest)
    | _ => pMembers fuel cs []

/-- Parse one "key": value member, then either a comma and more members or
the closing brace. -/
def pMembers : Nat → List Char → List (String × Json) → Option (Json × List Char)
  | 0, _, _ => none
  | fuel + 1, cs, acc =>
    match skipWs cs with
    | '"' :: rest =>
      match pString fuel rest with
      | none => none
      | some (k, r1) =>
        match skipWs r1 with
        | ':' :: r2 =>
          match pValue fuel r2 with
          | none => none
          | some (v, r3) =>
            let acc' := dictInsert acc k v
            match skipWs r3 with
            | ',' :: r4 => pMembers fuel r4 acc'
            | '}' :: r4 => some (.obj acc', r4)
            | _ => none
        | _ => none
    | _ => none

/-- Parse the elements of a JSON array after the opening bracket. -/
def pArr : Nat → List Char → Option (Json × List Char)
  | 0, _ => none
  | fuel + 1, cs =>
    match skipWs cs with
    | ']' :: rest => some (.arr [], rest)
    | _ => pElems fuel cs []

/-- Parse one array element, then either a comma and more elements or the
closing bracket. -/
def pElems : Nat → List Char → List Json → Option (Json × List Char)
  | 0, _, _ => none
  | fuel + 1, cs, acc =>
    match pValue fuel cs with
    | none => none
    | some (v, r1) =>
      match skipWs r1 with
      | ',' :: r2 => pElems fuel r2 (acc ++ [v])
      | ']' :: r2 => some (.arr (acc ++ [v]), r2)
      | _ => none

end

/-- Python json.loads: parse one JSON value and require that only
whitespace follows it. Returns none where json.loads raises
JSONDecodeError. -/
def json_loads (s : String) : Option Json :=
  let cs := s.toList
  match pValue (2 * cs.length + 2) cs with
  | some (j, rest) => if skipWs rest = [] then some j else none
  | none => none

/-- Whitespace stripped from both ends by Python str.strip (the ASCII
whitespace characters; less common unicode whitespace is not modelled). -/
def pyWs (c : Char) : Bool :=
  c = ' ' || c = '\t' || c = '\n' || c = '\r' || c = '\x0b' || c = '\x0c'

/-- Python str.strip: drop whitespace from both ends of the string. -/
def pyStrip (s : String) : String :=
  String.mk (((s.toList.dropWhile pyWs).reverse.dropWhile pyWs).reverse)

/-- Prefix test on character lists, modelling Python str.startswith. -/
def startsWithL : List Char → List Char → Bool
  | _, [] => true
  | [], _ :: _ => false
  | c :: cs, p :: ps => c = p && startsWithL cs ps

/-- Python str.split on a single separator character: split at every
occurrence, keeping empty pieces. -/
def splitCharAux (sep : Char) : List Char → List Char → List (List Char)
  | [], acc => [acc.reverse]
  | c :: rest, acc =>
    if c = sep then acc.reverse :: splitCharAux sep rest []
    else splitCharAux sep rest (c :: acc)

/-- Split a string at every occurrence of one character. -/
def splitChar (sep : Char) (s : String) : List String :=
  (splitCharAux sep s.toList []).map String.mk

/-- Join strings with a separator, modelling Python str.join. -/
def joinWith (sep : String) : List String → String
  | [] => ""
  | [s] => s
  | s :: rest => s ++ sep ++ joinWith sep rest

/-- Markdown-fence stripping step of _parse_json_response: when the text
starts with three backticks, drop the first line, and also the last line
when it consists of three backticks. -/
def stripFences (text : String) : String :=
  if startsWithL text.toList ['`', '`', '`'] then
    let lines := splitChar '\n' text
    joinWith "\n"
      (if lines.getLastD "" = "```" then (lines.drop 1).dropLast else lines.drop 1)
  else text

/-- Index of the last closing brace in a character list, if any. -/
def lastCloseBrace (cs : List Char) : Option Nat :=
  match cs.reverse.findIdx? (· = '}') with
  | none => none
  | some k => some (cs.length - 1 - k)

/-- Span matched by the greedy regex used as the fallback in
_parse_json_response: from the first opening brace to the last closing
brace after it, inclusive. Returns none when the regex does not match. -/
def findJsonSpan (text : String) : Option String :=
  let cs := text.toList
  match cs.findIdx? (· = '{') with
  | none => none
  | some i =>
    match lastCloseBrace (cs.drop (i + 1)) with
    | none => none
    | some j => some (String.mk ((cs.drop i).take (j + 2)))

/-- Embedding of GradingService._parse_json_response: strip whitespace,
strip markdown fences, try a direct parse, then try the first brace span
found by the greedy regex; when everything fails, raise
ValueError("Could not parse JSON response from AI"). The error value is
the exception message. -/
def parse_json_response (text : String) : Except String Json :=
  let t := stripFences (pyStrip text)
  match json_loads t with
  | some j => .ok j
  | none =>
    match findJsonSpan t with
    | some sub =>
      match json_loads sub with
      | some j => .ok j
      | none => .error "Could not parse JSON response from AI"
    | none => .error "Could not parse JSON response from AI"

/-- One rubric criterion as consumed by the grading service: its Canvas id
and its point cap. The description, long_description and ratings fields
only feed the prompt text and are omitted from the embedding. -/
structure Criterion where
  id : String
  points : Rat
deriving DecidableEq

/-- One entry of the criteria mapping of a validated grade: the clamped
score and the feedback value taken from the model response (feedback is
stored as the raw JSON value, as the Python code stores it). -/
structure CritGrade where
  score : Rat
  feedback : Json

/-- A grade result dict. The error and adjusted fields model the presence
of the corresponding dict keys: Python reads them with .get, so an absent
key behaves as false. -/
structure GradeResult where
  criteria : List (String × CritGrade)
  total : Rat
  general_feedback : Json
  error : Bool := false
  adjusted : Bool := false

/-- Python float(x) applied to a parsed JSON value: numbers are returned
as they are and booleans become 0 or 1; other values raise. Numeric
strings, which Python float would also accept, are not modelled (no model
response in the claims uses them). -/
def asRat : Json → Except String Rat
  | .num q => .ok q
  | .bool b => .ok (if b then 1 else 0)
  | _ => .error "could not convert value to float"

/-- Loop body of _validate_grade_result for one rubric criterion: when the
response criteria dict has the criterion id, clamp float(score) into
[0, max_points] and pass the feedback through; otherwise default to score
0 and feedback "No assessment provided". A non-object criteria entry
raises, as .get does on a non-dict. -/
def gradeCriterion (criteria : List (String × Json)) (c : Criterion) : Except String CritGrade :=
  match criteria.lookup c.id with
  | some (.obj efs) =>
    match asRat ((efs.lookup "score").getD (.num 0)) with
    | .ok s => .ok { score := max 0 (min s c.points), feedback := (efs.lookup "feedback").getD (.str "") }
    | .error e => .error e
  | some _ => .error "criterion entry has no attribute get"
  | none => .ok { score := 0, feedback := .str "No assessment provided" }

/-- The validation loop of _validate_grade_result: walk the rubric in
order, inserting each criterion grade into the criteria dict and adding
its score to the running total. -/
def validateLoop (criteria : List (String × Json)) :
    List Criterion → List (String × CritGrade) → Rat →
    Except String (List (String × CritGrade) × Rat)
  | [], d, t => .ok (d, t)
  | c :: rest, d, t =>
    match gradeCriterion criteria c with
    | .error e => .error e
    | .ok g => validateLoop criteria rest (dictInsert d c.id g) (t + g.score)

/-- Embedding of GradingService._validate_grade_result. The result dict
must be an object (a non-dict raises on .get); a criteria value that is
present but not an object is treated as raising (Python membership tests
on non-dict values are not modelled, no claim depends on them). -/
def validate_grade_result (result : Json) (rubric : List Criterion) : Except String GradeResult :=
  match result with
  | .obj fields =>
    match (fields.lookup "criteria").getD (.obj []) with
    | .obj criteria =>
      match validateLoop criteria rubric [] 0 with
      | .error e => .error e
      | .ok (d, t) =>
        .ok { criteria := d, total := t,
              general_feedback := (fields.lookup "general_feedback").getD (.str "") }
    | _ => .error "criteria value is not an object"
  | _ => .error "result has no attribute get"

/-- Loop of _create_empty_grade: give every rubric criterion a zero score
and the feedback "Unable to grade". -/
def emptyLoop : List Criterion → List (String × CritGrade) → List (String × CritGrade)
  | [], d => d
  | c :: rest, d => emptyLoop rest (dictInsert d c.id { score := 0, feedback := .str "Unable to grade" })

/-- Embedding of GradingService._create_empty_grade: the sentinel empty
grade with all-zero scores, total 0, the given message as general
feedback, and the error key set. -/
def create_empty_grade (rubric : List Criterion) (message : String) : GradeResult :=
  { criteria := emptyLoop rubric [], total := 0,
    general_feedback := .str message, error := true }

/-- Adjustment loop of regrade_with_adjustments: for every entry of the
suggested_adjustments dict whose key is a criterion of the grade, replace
the score with the raw suggested_score and append an Adjusted note to the
feedback. A missing suggested_score or reason key raises; a non-string
feedback or reason raises on concatenation; a suggested_score that is not
a number or boolean makes the later total recomputation raise, which is
modelled at the point the score is stored. -/
def applyAdjLoop : List (String × Json) → List (String × CritGrade) →
    Except String (List (String × CritGrade))
  | [], d => .ok d
  | (cid, adj) :: rest, d =>
    match d.lookup cid with
    | none => applyAdjLoop rest d
    | some cg =>
      match adj with
      | .obj afs =>
        match afs.lookup "suggested_score" with
        | none => .error "KeyError: suggested_score"
        | some sv =>
          match afs.lookup "reason" with
          | none => .error "KeyError: reason"
          | some (.str reason) =>
            match cg.feedback with
            | .str fb =>
              match asRat sv with
              | .error e => .error e
              | .ok sc =>
                applyAdjLoop rest
                  (dictInsert d cid
                    { score := sc, feedback := .str (fb ++ "\n[Adjusted: " ++ reason ++ "]") })
            | _ => .error "feedback does not support concatenation"
          | some _ => .error "reason rendering is not modelled for non-strings"
      | _ => .error "adjustment entry has no attribute get"

/-- Total recomputation loop at the end of regrade_with_adjustments. -/
def recomputeTotal : List (String × CritGrade) → Rat → Rat
  | [], t => t
  | x :: rest, t => recomputeTotal rest (t + x.2.score)

/-- Embedding of GradingService.regrade_with_adjustments: copy the
criteria dict, apply the suggested adjustments, mark the result adjusted,
and recompute the total from the per-criterion scores. -/
def regrade_with_adjustments (g : GradeResult) (adjustments : Json) : Except String GradeResult :=
  match adjustments with
  | .obj adjs =>
    match applyAdjLoop adjs g.criteria with
    | .error e => .error e
    | .ok crits =>
      .ok { criteria := crits, total := recomputeTotal crits 0,
            general_feedback := g.general_feedback, adjusted := true }
  | _ => .error "adjustments has no attribute items"

/-- Sum of the score fields of a criteria mapping; this is the quantity
the spec says the total field must always equal. -/
def sumScores (d : List (String × CritGrade)) : Rat :=
  (d.map fun p => p.2.score).sum

/-- The criteria dict that _validate_grade_result reads from a parsed
model response: the criteria field of the result object, defaulting to an
empty dict, and empty whenever validation would raise instead. -/
def criteriaOf (result : Json) : List (String × Json) :=
  match result with
  | .obj fields =>
    match (fields.lookup "criteria").getD (.obj []) with
    | .obj cs => cs
    | _ => []
  | _ => []

/-- Python str.lower restricted to ASCII letters. -/
def lowerStr (s : String) : String :=
  String.mk (s.toList.map Char.toLower)

/-- Suffix test on character lists, modelling Python str.endswith. -/
def endsWithL (cs suffix : List Char) : Bool :=
  startsWithL cs.reverse suffix.reverse

/-- Extension dispatch test of extract_text_from_files:
file_path.lower().endswith(ext). -/
def hasExt (p : String) (ext : String) : Bool :=
  endsWithL (lowerStr p).toList ext.toList

/-- os.path.basename on a posix path: the part after the last slash. -/
def basename (p : String) : String :=
  (splitChar '/' p).getLastD ""

/-- One submission file as seen by the extractor: its path together with
the outcome each underlying read the Python code could perform on it
would have. Exactly one of the outcome fields is consulted, chosen by the
extension dispatch; an Except.error models the underlying call raising an
exception with the given message. -/
structure SubFile where
  path : String
  pdfPages : Except String (List String) := .ok []
  ocrPages : Except String (List String) := .ok []
  docxParas : Except String (List String) := .ok []
  textRead : Except String String := .ok ""

/-- Join the nonempty strings of a list with newlines, modelling the
per-page accumulation loops of _extract_pdf_text and _ocr_pdf, which skip
falsy page texts. -/
def joinNonempty (ps : List String) : String :=
  joinWith "\n" (ps.filter fun s => s ≠ "")

/-- Embedding of GradingService._ocr_pdf: per-page OCR text joined with
newlines; any exception becomes an OCR-failed marker string. -/
def ocr_pdf (f : SubFile) : String :=
  match f.ocrPages with
  | .ok ps => joinNonempty ps
  | .error e => "[OCR failed: " ++ e ++ "]"

/-- Embedding of GradingService._extract_pdf_text: join the embedded page
texts; when the result is empty or whitespace, fall back to OCR; any
exception becomes an error marker string, so the function never raises. -/
def extract_pdf_text (f : SubFile) : String :=
  match f.pdfPages with
  | .ok ps =>
    let full := joinNonempty ps
    if pyStrip full = "" then ocr_pdf f else full
  | .error e => "[Error reading PDF: " ++ e ++ "]"

/-- Embedding of GradingService._extract_docx_text: paragraph texts joined
with newlines; any exception becomes an error marker string. -/
def extract_docx_text (f : SubFile) : String :=
  match f.docxParas with
  | .ok ps => joinWith "\n" ps
  | .error e => "[Error reading DOCX: " ++ e ++ "]"

/-- Per-file dispatch of extract_text_from_files. The pdf and docx helpers
never raise; a txt file is read directly, so a read failure raises into
the per-file handler; an unrecognized extension is read inside its own
try, so a failure yields the Unable-to-read placeholder instead of
raising. -/
def extractOne (f : SubFile) : Except String String :=
  if hasExt f.path ".pdf" then .ok (extract_pdf_text f)
  else if hasExt f.path ".docx" then .ok (extract_docx_text f)
  else if hasExt f.path ".txt" then f.textRead
  else
    match f.textRead with
    | .ok t => .ok t
    | .error _ => .ok ("[Unable to read file: " ++ basename f.path ++ "]")

/-- Loop of extract_text_from_files: nonempty file texts are appended with
a File marker line; a per-file exception appends an inline error marker. -/
def extractLoop : List SubFile → List String → List String
  | [], acc => acc
  | f :: rest, acc =>
    match extractOne f with
    | .ok t =>
      extractLoop rest
        (if t ≠ "" then acc ++ ["--- File: " ++ basename f.path ++ " ---\n" ++ t] else acc)
    | .error e => extractLoop rest (acc ++ ["[Error reading " ++ basename f.path ++ ": " ++ e ++ "]"])

/-- Embedding of GradingService.extract_text_from_files: the collected
per-file blocks joined with blank lines. Total, so extraction never
raises. -/
def extract_text_from_files (files : List SubFile) : String :=
  joinWith "\n\n" (extractLoop files [])

/-- The block one file contributes to the extracted text, stated directly:
a marker-prefixed text when the file yields nonempty text, nothing when
the text is empty, and an inline error marker when the read raises. -/
def fileBlock (f : SubFile) : Option String :=
  match extractOne f with
  | .ok t => if t ≠ "" then some ("--- File: " ++ basename f.path ++ " ---\n" ++ t) else none
  | .error e => some ("[Error reading " ++ basename f.path ++ ": " ++ e ++ "]")

/-- Embedding of GradingService.grade_submission. The response argument is
the outcome of the OpenAI chat call together with reading the response
content (ok gives the raw text, error the raised exception message). The
returned number counts model calls made. Prompt construction and the
15000-character truncation only shape the text sent to the model, which is
part of the environment, so they do not appear here. -/
def grade_submission (response : Except String String) (files : List SubFile)
    (rubric : List Criterion) : GradeResult × Nat :=
  let submission_text := extract_text_from_files files
  if submission_text = "" ∨ startsWithL submission_text.toList ['['] then
    (create_empty_grade rubric "Unable to read submission files", 0)
  else
    match response with
    | .error e => (create_empty_grade rubric ("Grading failed: " ++ e), 1)
    | .ok raw =>
      match parse_json_response (pyStrip raw) with
      | .error e => (create_empty_grade rubric ("Grading failed: " ++ e), 1)
      | .ok j =>
        match validate_grade_result j rubric with
        | .error e => (create_empty_grade rubric ("Grading failed: " ++ e), 1)
        | .ok g => (g, 1)

/-- Embedding of GradingService.fairness_review, returning the result dict
as an association list together with the number of model calls made. The
response argument is the outcome of the Gemini call and of reading
response.text. Everything inside the try block that fails — the model
call, the parse, or reading fields off a parsed non-dict — lands in the
Review-skipped handler. -/
def fairness_review (response : Except String String) (files : List SubFile)
    (rubric : List Criterion) (grade_result : GradeResult) :
    List (String × Json) × Nat :=
  if grade_result.error then
    ([("flagged", .bool false), ("message", .str "Skipped - grading error")], 0)
  else
    match response with
    | .error e => ([("flagged", .bool false), ("message", .str ("Review skipped: " ++ e))], 1)
    | .ok raw =>
      match parse_json_response (pyStrip raw) with
      | .error e => ([("flagged", .bool false), ("message", .str ("Review skipped: " ++ e))], 1)
      | .ok (.obj fs) =>
        ([("flagged", (fs.lookup "flagged").getD (.bool false)),
          ("confidence", (fs.lookup "confidence").getD (.num (1 / 2))),
          ("issues", (fs.lookup "issues").getD (.arr [])),
          ("suggested_adjustments", (fs.lookup "suggested_adjustments").getD (.obj [])),
          ("message", (fs.lookup "message").getD (.str ""))], 1)
      | .ok _ =>
        ([("flagged", .bool false),
          ("message", .str "Review skipped: response object has no attribute get")], 1)

/-- Occurrence test helper: does the pattern start at some position of the
text. -/
def occursInAux (sub : List Char) : List Char → Bool
  | [] => startsWithL [] sub
  | c :: rest => startsWithL (c :: rest) sub || occursInAux sub rest

/-- Substring occurrence test, used to state that an error value does not
carry a given text. -/
def occursIn (sub s : String) : Bool :=
  occursInAux sub.toList s.toList

/-- A well-formed non-error grade with no criteria, used as a concrete
reviewer input. -/
def plainGrade : GradeResult :=
  { criteria := [], total := 0, general_feedback := .str "" }

/-- A reviewer model response reporting confidence 7, outside the unit
interval. -/
def confidence7 : String := "\x7b\"flagged\": false, \"confidence\": 7\x7d"

/-- Job status values of the grading-job state machine in main.py. -/
inductive Status where
  | pending
  | running
  | completed
  | failed
deriving DecidableEq

/-- Progress dict of a grading job. The currentStudent key is absent until
the worker loop first writes it, which Option models. -/
structure Progress where
  current : Nat := 0
  total : Nat := 0
  currentStudent : Option String := none
deriving DecidableEq

/-- One Canvas submission as used by the worker loop: its id and its
optional anonymous_id. -/
structure Submission where
  id : String
  anonymous_id : Option String
deriving DecidableEq

/-- Environment of one submission iteration: the submission data, the
outcome of downloading its files, and the outcomes of the two model
calls made for it. -/
structure SubmissionEnv where
  sub : Submission
  download : Except String (List SubFile)
  gradeModel : Except String String
  reviewModel : Except String String

/-- The merged per-submission grade stored into the grades mapping:
the grade dict spread together with the fairness_flag and
fairness_message keys read off the review dict. -/
structure MergedGrade where
  grade : GradeResult
  fairness_flag : Json
  fairness_message : Json

/-- The result dict stored on completion: the assignment (with the rubric
attached), the submission list and the grades mapping. -/
structure JobResultData where
  assignment : Json
  rubric : List Criterion
  submissions : List Submission
  grades : List (String × MergedGrade)

/-- One snapshot of a grading-job record in the in-memory registry. -/
structure JobRecord where
  status : Status
  progress : Progress
  result : Option JobResultData
  error : Option String

/-- The record created by start_grading: pending, zero progress, no
result, no error. -/
def initJobRecord : JobRecord :=
  { status := .pending, progress := {}, result := none, error := none }

/-- Environment of one run of run_grading_job: the outcome of constructing
the services, of the three Canvas fetches, and the per-submission
environments. An Except.error models the step raising an exception with
that message. -/
structure JobEnv where
  init : Except String Unit
  assignment : Except String Json
  rubric : Except String (List Criterion)
  submissions : Except String (List SubmissionEnv)

/-- Whether an Except value is a success. -/
def isOkE {α β : Type} : Except α β → Bool
  | .ok _ => true
  | .error _ => false

/-- The two record updates performed by the exception handler of
run_grading_job: first the status flips to failed, then the error message
is stored. -/
def failTrace (jr : JobRecord) (e : String) : List JobRecord :=
  [{ jr with status := .failed }, { jr with status := .failed, error := some e }]

/-- The registry write progress.current = i + 1 at the top of each loop
iteration. -/
def bumpCurrent (jr : JobRecord) (i : Nat) : JobRecord :=
  { jr with progress := { jr.progress with current := i + 1 } }

/-- The registry write of progress.currentStudent from the submission
anonymous_id, defaulted to "Student i+1". -/
def setStudent (jr : JobRecord) (s : SubmissionEnv) (i : Nat) : JobRecord :=
  { jr with progress := { jr.progress with
      currentStudent := some (s.sub.anonymous_id.getD ("Student " ++ toString (i + 1))) } }

/-- The merged grade stored for one submission: the grade dict together
with the fairness_flag and fairness_message keys read off the review
dict. -/
def mergedOf (rubric : List Criterion) (s : SubmissionEnv) (files : List SubFile) : MergedGrade :=
  { grade := (grade_submission s.gradeModel files rubric).1,
    fairness_flag :=
      (((fairness_review s.reviewModel files rubric
        (grade_submission s.gradeModel files rubric).1).1).lookup "flagged").getD (.bool false),
    fairness_message :=
      (((fairness_review s.reviewModel files rubric
        (grade_submission s.gradeModel files rubric).1).1).lookup "message").getD (.str "") }

/-- The per-submission loop of run_grading_job. Returns the list of job
records observable after each registry write inside the loop, the final
record, and either the grades mapping or the message of an exception that
aborted the loop. Cleanup of temporary files swallows its own exceptions
and writes nothing, so it does not appear. -/
def runSubs (rubric : List Criterion) :
    List SubmissionEnv → Nat → JobRecord → List (String × MergedGrade) →
    List JobRecord × JobRecord × Except String (List (String × MergedGrade))
  | [], _, jr, grades => ([], jr, .ok grades)
  | s :: rest, i, jr, grades =>
    let jr1 := bumpCurrent jr i
    let jr2 := setStudent jr1 s i
    match s.download with
    | .error e => ([jr1, jr2], jr2, .error e)
    | .ok files =>
      let out := runSubs rubric rest (i + 1) jr2 (dictInsert grades s.sub.id (mergedOf rubric s files))
      (jr1 :: jr2 :: out.1, out.2.1, out.2.2)

/-- The registry write flipping the status to running. -/
def runningRec (jr : JobRecord) : JobRecord :=
  { jr with status := .running }

/-- The registry write of progress.total once the submissions are
fetched. -/
def withTotal (jr : JobRecord) (n : Nat) : JobRecord :=
  { jr with progress := { jr.progress with total := n } }

/-- The registry write flipping the status to completed. -/
def completedRec (jr : JobRecord) : JobRecord :=
  { jr with status := .completed }

/-- The result dict stored after a successful loop. -/
def jobResultOf (a : Json) (r : List Criterion) (subs : List SubmissionEnv)
    (grades : List (String × MergedGrade)) : JobResultData :=
  { assignment := a, rubric := r,
    submissions := subs.map (fun s => s.sub), grades := grades }

/-- The registry write storing the result dict. -/
def withResult (jr : JobRecord) (res : JobResultData) : JobRecord :=
  { jr with result := some res }

/-- Embedding of run_grading_job in main.py: the sequence of job records
observable after each registry write, starting from the record
start_grading created. Any exception before or inside the loop lands in
the handler, which flips the status to failed and stores the message; a
complete loop flips the status to completed and stores the result. -/
def run_grading_job (env : JobEnv) (jr0 : JobRecord) : List JobRecord :=
  let jr1 := runningRec jr0
  match env.init with
  | .error e => jr1 :: failTrace jr1 e
  | .ok _ =>
    match env.assignment with
    | .error e => jr1 :: failTrace jr1 e
    | .ok a =>
      match env.rubric with
      | .error e => jr1 :: failTrace jr1 e
      | .ok r =>
        match env.submissions with
        | .error e => jr1 :: failTrace jr1 e
        | .ok subs =>
          let jr2 := withTotal jr1 subs.length
          let out := runSubs r subs 0 jr2 []
          match out.2.2 with
          | .ok grades =>
            jr1 :: jr2 :: out.1 ++
              [completedRec out.2.1, withResult (completedRec out.2.1) (jobResultOf a r subs grades)]
          | .error e =>
            jr1 :: jr2 :: out.1 ++ failTrace out.2.1 e

/-- Message of the first download that raises, if any. -/
def firstDownloadErr : List SubmissionEnv → Option String
  | [] => none
  | s :: rest =>
    match s.download with
    | .error e => some e
    | .ok _ => firstDownloadErr rest

/-- The message of the first exception run_grading_job encounters, if any:
service construction, the three fetches in order, then the downloads in
submission order. -/
def envFailure (env : JobEnv) : Option String :=
  match env.init with
  | .error e => some e
  | .ok _ =>
    match env.assignment with
    | .error e => some e
    | .ok _ =>
      match env.rubric with
      | .error e => some e
      | .ok _ =>
        match env.submissions with
        | .error e => some e
        | .ok subs => firstDownloadErr subs

/-- Whether a job run completes without any uncaught exception. -/
def JobEnv.noException (env : JobEnv) : Bool :=
  isOkE env.init && isOkE env.assignment && isOkE env.rubric &&
    (match env.submissions with
     | .ok subs => subs.all fun s => isOkE s.download
     | .error _ => false)

/-- Number of submissions the job will process. -/
def envTotal (env : JobEnv) : Nat :=
  match env.submissions with
  | .ok subs => subs.length
  | .error _ => 0

/-- A submission environment whose steps all succeed. -/
def subEnvOk : SubmissionEnv :=
  { sub := { id := "s1", anonymous_id := some "A1" },
    download := .ok [], gradeModel := .ok "x", reviewModel := .ok "x" }

/-- A submission environment whose download raises. -/
def subEnvBad : SubmissionEnv :=
  { sub := { id := "s2", anonymous_id := none },
    download := .error "boom", gradeModel := .ok "x", reviewModel := .ok "x" }

/-- A three-submission job environment with no failures. -/
def envOk : JobEnv :=
  { init := .ok (), assignment := .ok (.obj []),
    rubric := .ok [{ id := "c1", points := 10 }],
    submissions := .ok [subEnvOk, subEnvOk, subEnvOk] }

/-- A three-submission job environment whose second download raises. -/
def envFail : JobEnv :=
  { init := .ok (), assignment := .ok (.obj []),
    rubric := .ok [{ id := "c1", points := 10 }],
    submissions := .ok [subEnvOk, subEnvBad, subEnvOk] }

/-- Two-criterion rubric used by the end-to-end example of the spec. -/
def rubricEx : List Criterion := [{ id := "c1", points := 10 }, { id := "c2", points := 10 }]

/-- One-criterion rubric used by concrete test inputs. -/
def rubricOne : List Criterion := [{ id := "c1", points := 10 }]

/-- Model response of the end-to-end example: criterion c1 scored 12 of
10 with feedback x, criterion c2 omitted, self-reported total 12. -/
def resultEx : Json :=
  .obj [("criteria", .obj [("c1", .obj [("score", .num 12), ("feedback", .str "x")])]),
        ("total", .num 12), ("general_feedback", .str "ok")]

/-- Expected validated grade of the end-to-end example: c1 clamped to 10,
c2 defaulted to 0 with "No assessment provided", total recomputed to 10. -/
def gradeEx : GradeResult :=
  { criteria := [("c1", { score := 10, feedback := .str "x" }),
                 ("c2", { score := 0, feedback := .str "No assessment provided" })],
    total := 10, general_feedback := .str "ok" }

/-- Model response reporting 15 points on a 10-point criterion. -/
def resultOver : Json :=
  .obj [("criteria", .obj [("c1", .obj [("score", .num 15), ("feedback", .str "x")])]),
        ("general_feedback", .str "ok")]

/-- Validated grade of resultOver: the score is clamped to 10. -/
def gradeOver : GradeResult :=
  { criteria := [("c1", { score := 10, feedback := .str "x" })],
    total := 10, general_feedback := .str "ok" }

theorem dictInsert_absent {α : Type} (d : List (String × α)) (k : String) (v : α)
    (h : k ∉ d.map Prod.fst) : dictInsert d k v = d ++ [(k, v)] := by
  induction d with
  | nil => rfl
  | cons p rest ih =>
    obtain ⟨k', v'⟩ := p
    simp only [List.map_cons, List.mem_cons, not_or] at h
    simp [dictInsert, Ne.symm h.1, ih h.2]

theorem mem_dictInsert {α : Type} (d : List (String × α)) (k : String) (v : α) :
    ∀ p ∈ dictInsert d k v, p = (k, v) ∨ p ∈ d := by
  induction d with
  | nil => simp [dictInsert]
  | cons q rest ih =>
    obtain ⟨k', v'⟩ := q
    intro p hp
    by_cases hk : k' = k
    · simp [dictInsert, hk] at hp
      rcases hp with h | h
      · exact Or.inl (by simp [h])
      · exact Or.inr (by simp [h])
    · simp [dictInsert, hk] at hp
      rcases hp with h | h
      · exact Or.inr (by simp [h])
      · rcases ih p h with h' | h'
        · exact Or.inl h'
        · exact Or.inr (by simp [h'])

theorem dictInsert_cons_ne {α : Type} (rest : List (String × α)) (k k' : String) (v v' : α)
    (hk : k' ≠ k) : dictInsert ((k', v') :: rest) k v = (k', v') :: dictInsert rest k v := by
  simp [dictInsert, hk]

theorem key_mem_dictInsert {α : Type} (d : List (String × α)) (k : String) (v : α) :
    k ∈ (dictInsert d k v).map Prod.fst := by
  induction d with
  | nil => simp [dictInsert]
  | cons q rest ih =>
    obtain ⟨k', v'⟩ := q
    by_cases hk : k' = k
    · simp [dictInsert, hk]
    · rw [dictInsert_cons_ne rest k k' v v' hk]
      simp only [List.map_cons, List.mem_cons]
      exact Or.inr ih

theorem keys_mono_dictInsert {α : Type} (d : List (String × α)) (k k' : String) (v : α)
    (h : k' ∈ d.map Prod.fst) : k' ∈ (dictInsert d k v).map Prod.fst := by
  induction d with
  | nil => simp at h
  | cons q rest ih =>
    obtain ⟨k1, v1⟩ := q
    simp only [List.map_cons, List.mem_cons] at h
    by_cases hk : k1 = k
    · subst hk
      have hins : dictInsert ((k1, v1) :: rest) k1 v = (k1, v) :: rest := by simp [dictInsert]
      rw [hins]
      simp only [List.map_cons, List.mem_cons]
      exact h
    · rw [dictInsert_cons_ne rest k k1 v v1 hk]
      simp only [List.map_cons, List.mem_cons]
      rcases h with h | h
      · exact Or.inl h
      · exact Or.inr (ih h)

theorem lookup_of_const_values {α : Type} (d : List (String × α)) (k : String) (v0 : α)
    (hmem : k ∈ d.map Prod.fst) (hval : ∀ p ∈ d, p.2 = v0) :
    d.lookup k = some v0 := by
  induction d with
  | nil => simp at hmem
  | cons q rest ih =>
    obtain ⟨k1, v1⟩ := q
    by_cases hk : k = k1
    · have : v1 = v0 := hval (k1, v1) (by simp)
      simp [List.lookup, hk, this]
    · simp only [List.map_cons, List.mem_cons] at hmem
      rcases hmem with h | h
      · exact absurd h hk
      · have hbeq : (k == k1) = false := beq_false_of_ne hk
        simp [List.lookup, hbeq]
        exact ih h fun p hp => hval p (by simp [hp])

theorem lookup_of_mem_of_nodup_keys {α : Type} (d : List (String × α)) (k : String) (v : α)
    (hnd : (d.map Prod.fst).Nodup) (hmem : (k, v) ∈ d) :
    d.lookup k = some v := by
  induction d with
  | nil => simp at hmem
  | cons q rest ih =>
    obtain ⟨k1, v1⟩ := q
    simp only [List.mem_cons] at hmem
    simp only [List.map_cons, List.nodup_cons] at hnd
    rcases hmem with h | h
    · obtain ⟨hk, hv⟩ := Prod.mk.injEq .. ▸ h
      simp [List.lookup, hk, hv]
    · have hk1 : k ≠ k1 := by
        intro hkk
        exact hnd.1 (hkk ▸ (List.mem_map.mpr ⟨(k, v), h, rfl⟩))
      have hbeq : (k == k1) = false := beq_false_of_ne hk1
      simp [List.lookup, hbeq]
      exact ih hnd.2 h

theorem sumScores_append (d : List (String × CritGrade)) (p : String × CritGrade) :
    sumScores (d ++ [p]) = sumScores d + p.2.score := by
  simp [sumScores]

theorem validateLoop_spec (criteria : List (String × Json)) :
    ∀ (rest : List Criterion) (d : List (String × CritGrade)) (t : Rat),
      ((d.map Prod.fst) ++ rest.map Criterion.id).Nodup →
      t = sumScores d →
      ∀ d' t', validateLoop criteria rest d t = .ok (d', t') →
        d'.map Prod.fst = d.map Prod.fst ++ rest.map Criterion.id ∧
        t' = sumScores d' ∧
        (∀ p ∈ d, p ∈ d') ∧
        (∀ c ∈ rest, ∃ cg, gradeCriterion criteria c = .ok cg ∧ (c.id, cg) ∈ d') := by
  intro rest
  induction rest with
  | nil =>
    intro d t hnd ht d' t' hok
    simp only [validateLoop] at hok
    obtain ⟨rfl, rfl⟩ : d = d' ∧ t = t' := by
      cases hok; exact ⟨rfl, rfl⟩
    simp [ht]
  | cons c rest ih =>
    intro d t hnd ht d' t' hok
    simp only [validateLoop] at hok
    split at hok
    · cases hok
    · rename_i g hg
      have hkd : c.id ∉ d.map Prod.fst := by
        rw [List.nodup_append] at hnd
        intro hmem
        exact hnd.2.2 hmem (by simp)
      have hins : dictInsert d c.id g = d ++ [(c.id, g)] := dictInsert_absent d c.id g hkd
      rw [hins] at hok
      have hkeys2 : ((d ++ [(c.id, g)]).map Prod.fst) ++ rest.map Criterion.id =
          (d.map Prod.fst) ++ (c :: rest).map Criterion.id := by
        simp
      have hnd2 : (((d ++ [(c.id, g)]).map Prod.fst) ++ rest.map Criterion.id).Nodup := by
        rw [hkeys2]; exact hnd
      have ht2 : t + g.score = sumScores (d ++ [(c.id, g)]) := by
        rw [sumScores_append, ht]
      obtain ⟨hk, ht', hmem, hall⟩ := ih (d ++ [(c.id, g)]) (t + g.score) hnd2 ht2 d' t' hok
      refine ⟨?_, ht', ?_, ?_⟩
      · rw [hk]; simp
      · intro p hp
        exact hmem p (by simp [hp])
      · intro c' hc'
        rcases List.mem_cons.mp hc' with h | h
        · subst h
          exact ⟨g, hg, hmem (c'.id, g) (by simp)⟩
        · exact hall c' h

theorem emptyLoop_const : ∀ (rubric : List Criterion) (d : List (String × CritGrade)),
    (∀ p ∈ d, p.2 = ({ score := 0, feedback := .str "Unable to grade" } : CritGrade)) →
    ∀ p ∈ emptyLoop rubric d, p.2 = ({ score := 0, feedback := .str "Unable to grade" } : CritGrade) := by
  intro rubric
  induction rubric with
  | nil => intro d hd; simpa [emptyLoop] using hd
  | cons c rest ih =>
    intro d hd
    simp only [emptyLoop]
    apply ih
    intro p hp
    rcases mem_dictInsert d c.id _ p hp with h | h
    · rw [h]
    · exact hd p h

theorem emptyLoop_keys_mono : ∀ (rubric : List Criterion) (d : List (String × CritGrade)) (k : String),
    k ∈ d.map Prod.fst → k ∈ (emptyLoop rubric d).map Prod.fst := by
  intro rubric
  induction rubric with
  | nil => intro d k h; simpa [emptyLoop] using h
  | cons c rest ih =>
    intro d k h
    simp only [emptyLoop]
    exact ih _ k (keys_mono_dictInsert d c.id k _ h)

theorem emptyLoop_mem_keys : ∀ (rubric : List Criterion) (d : List (String × CritGrade)) (c : Criterion),
    c ∈ rubric → c.id ∈ (emptyLoop rubric d).map Prod.fst := by
  intro rubric
  induction rubric with
  | nil => intro d c h; simp at h
  | cons c0 rest ih =>
    intro d c h
    rcases List.mem_cons.mp h with h | h
    · subst h
      simp only [emptyLoop]
      exact emptyLoop_keys_mono rest _ c.id (key_mem_dictInsert d c.id _)
    · exact ih _ c h

theorem recomputeTotal_eq : ∀ (d : List (String × CritGrade)) (t : Rat),
    recomputeTotal d t = t + sumScores d := by
  intro d
  induction d with
  | nil => intro t; simp [recomputeTotal, sumScores]
  | cons x rest ih =>
    intro t
    simp only [recomputeTotal]
    rw [ih]
    simp [sumScores]
    ring

theorem sumScores_empty_grade (rubric : List Criterion) :
    sumScores (emptyLoop rubric []) = 0 := by
  have hz := emptyLoop_const rubric [] (by simp)
  unfold sumScores
  apply List.sum_eq_zero
  intro x hx
  obtain ⟨p, hp, rfl⟩ := List.mem_map.mp hx
  rw [hz p hp]

/-- Claim C1. For all three producers of a GradeResult — validation of a
model response, the sentinel empty grade, and regrading with fairness
adjustments — the total field equals the sum of the score fields of the
criteria mapping, and the total reported by the model itself is ignored:
adding a total field to the response does not change the validated result. -/
theorem C1_total_recomputed (rubric : List Criterion) (result adjs : Json)
    (fields : List (String × Json)) (tv : Json) (msg : String) (g0 : GradeResult)
    (hids : (rubric.map Criterion.id).Nodup) :
    (∀ g, validate_grade_result result rubric = .ok g → g.total = sumScores g.criteria) ∧
    (create_empty_grade rubric msg).total = sumScores (create_empty_grade rubric msg).criteria ∧
    (∀ g, regrade_with_adjustments g0 adjs = .ok g → g.total = sumScores g.criteria) ∧
    validate_grade_result (.obj (("total", tv) :: fields)) rubric =
      validate_grade_result (.obj fields) rubric := by
  refine ⟨?_, ?_, ?_, ?_⟩
  · intro g hok
    simp only [validate_grade_result] at hok
    split at hok
    · split at hok
      · split at hok
        · cases hok
        · rename_i d t hloop
          obtain ⟨hk, ht, -, -⟩ :=
            validateLoop_spec _ rubric [] 0 (by simpa using hids) (by simp [sumScores]) d t hloop
          cases hok
          exact ht
      · cases hok
    · cases hok
  · show (0 : Rat) = sumScores (emptyLoop rubric [])
    rw [sumScores_empty_grade]
  · intro g hok
    simp only [regrade_with_adjustments] at hok
    split at hok
    · split at hok
      · cases hok
      · cases hok
        show recomputeTotal _ 0 = sumScores _
        rw [recomputeTotal_eq]
        ring
    · cases hok
  · rfl

/-- Witness for C1 at the end-to-end example of the spec: the validated
grade recomputes total 10 even though the model reported 12. -/
theorem C1_total_recomputed_witness :
    (rubricEx.map Criterion.id).Nodup ∧
    validate_grade_result resultEx rubricEx = .ok gradeEx ∧
    gradeEx.total = sumScores gradeEx.criteria := by
  have hval : validate_grade_result resultEx rubricEx = .ok gradeEx := by
    simp only [validate_grade_result, validateLoop, gradeCriterion, asRat, dictInsert,
      List.lookup, rubricEx, resultEx, gradeEx, Option.getD, String.reduceBEq, String.reduceEq]
    norm_num
  refine ⟨by decide, hval, ?_⟩
  exact (C1_total_recomputed rubricEx resultEx .null [] .null "m"
    { criteria := [], total := 0, general_feedback := .str "" } (by decide)).1 gradeEx hval

/-- Claim C2. In a validated grade, every rubric criterion receives the
clamped score max 0 (min reported max_points) when the model reported it,
so the score lies in the interval from 0 to max_points, and receives score
0 with feedback "No assessment provided" when the model omitted it. -/
theorem C2_clamped (rubric : List Criterion) (result : Json) (g : GradeResult)
    (hids : (rubric.map Criterion.id).Nodup)
    (hok : validate_grade_result result rubric = .ok g)
    (c : Criterion) (hc : c ∈ rubric) (hm : 0 ≤ c.points) :
    ∃ cg, gradeCriterion (criteriaOf result) c = .ok cg ∧
      g.criteria.lookup c.id = some cg ∧
      0 ≤ cg.score ∧ cg.score ≤ c.points ∧
      ((criteriaOf result).lookup c.id = none →
        cg = { score := 0, feedback := .str "No assessment provided" }) ∧
      (∀ efs s, (criteriaOf result).lookup c.id = some (.obj efs) →
        asRat ((efs.lookup "score").getD (.num 0)) = .ok s →
        cg.score = max 0 (min s c.points)) := by
  rcases result with _ | _ | _ | _ | _ | fields <;>
    simp only [validate_grade_result, reduceCtorEq] at hok
  split at hok
  · rename_i criteria' hcrit
    split at hok
    · cases hok
    · rename_i d t hloop
      have hco : criteriaOf (.obj fields) = criteria' := by
        simp [criteriaOf, hcrit]
      obtain ⟨hk, -, -, hall⟩ :=
        validateLoop_spec criteria' rubric [] 0 (by simpa using hids) (by simp [sumScores]) d t hloop
      obtain ⟨cg, hgc, hmem⟩ := hall c hc
      cases hok
      have hnd : (d.map Prod.fst).Nodup := by rw [hk]; simpa using hids
      have hlook : d.lookup c.id = some cg := lookup_of_mem_of_nodup_keys d c.id cg hnd hmem
      refine ⟨cg, hco ▸ hgc, hlook, ?_⟩
      rw [hco]
      simp only [gradeCriterion] at hgc
      split at hgc
      · rename_i efs0 hefs
        split at hgc
        · rename_i s0 hs0
          cases hgc
          refine ⟨le_max_left 0 _, max_le hm (min_le_right s0 c.points), ?_, ?_⟩
          · intro hnone; rw [hefs] at hnone; cases hnone
          · intro efs s h1 h2
            rw [hefs] at h1
            cases h1
            rw [hs0] at h2
            cases h2
            rfl
        · cases hgc
      · cases hgc
      · rename_i hnone
        cases hgc
        refine ⟨le_refl 0, hm, fun _ => rfl, ?_⟩
        intro efs s h1 h2
        rw [hnone] at h1
        cases h1
  · cases hok

/-- Witness for C2: a reported score of 15 on a 10-point criterion is
clamped to 10 in the validated grade. -/
theorem C2_clamped_witness :
    ((rubricOne.map Criterion.id).Nodup ∧
      validate_grade_result resultOver rubricOne = .ok gradeOver ∧
      ({ id := "c1", points := 10 } : Criterion) ∈ rubricOne ∧
      (0 : Rat) ≤ 10) ∧
    gradeOver.criteria.lookup "c1" = some { score := 10, feedback := .str "x" } := by
  have hval : validate_grade_result resultOver rubricOne = .ok gradeOver := by
    simp only [validate_grade_result, validateLoop, gradeCriterion, asRat, dictInsert,
      List.lookup, rubricOne, resultOver, gradeOver, Option.getD, String.reduceBEq, String.reduceEq]
    norm_num
  refine ⟨⟨by decide, hval, by decide, by decide⟩, ?_⟩
  obtain ⟨cg, hgc, hlook, -⟩ :=
    C2_clamped rubricOne resultOver gradeOver (by decide) hval
      { id := "c1", points := 10 } (by decide) (by decide)
  have h2 : gradeCriterion (criteriaOf resultOver) { id := "c1", points := 10 } =
      .ok { score := 10, feedback := .str "x" } := by rfl
  rw [hgc] at h2
  cases h2
  exact hlook

theorem gradeCriterion_cons_ne (cs : List (String × Json)) (k : String) (e : Json)
    (c : Criterion) (h : c.id ≠ k) :
    gradeCriterion ((k, e) :: cs) c = gradeCriterion cs c := by
  have hbeq : (c.id == k) = false := beq_false_of_ne h
  simp only [gradeCriterion, List.lookup, hbeq]

theorem validateLoop_congr (cs : List (String × Json)) (k : String) (e : Json) :
    ∀ (rest : List Criterion) (d : List (String × CritGrade)) (t : Rat),
      (∀ c ∈ rest, c.id ≠ k) →
      validateLoop ((k, e) :: cs) rest d t = validateLoop cs rest d t := by
  intro rest
  induction rest with
  | nil => intro d t _; rfl
  | cons c rest ih =>
    intro d t h
    have hg := gradeCriterion_cons_ne cs k e c (h c (by simp))
    simp only [validateLoop, hg]
    cases gradeCriterion cs c with
    | error e' => rfl
    | ok g => exact ih _ _ fun c' hc' => h c' (by simp [hc'])

/-- Claim C10. The validated criteria mapping contains exactly the rubric
criterion ids: an extra criterion id in the model response that is not in
the rubric changes nothing about the validated result, and the keys of the
validated mapping are the rubric ids. -/
theorem C10_extra_keys_discarded (rubric : List Criterion) (cs : List (String × Json))
    (k : String) (e gfb : Json)
    (hids : (rubric.map Criterion.id).Nodup) (hk : k ∉ rubric.map Criterion.id) :
    validate_grade_result (.obj [("criteria", .obj ((k, e) :: cs)), ("general_feedback", gfb)]) rubric =
      validate_grade_result (.obj [("criteria", .obj cs), ("general_feedback", gfb)]) rubric ∧
    (∀ g, validate_grade_result (.obj [("criteria", .obj cs), ("general_feedback", gfb)]) rubric = .ok g →
      g.criteria.map Prod.fst = rubric.map Criterion.id) := by
  constructor
  · have e1 : validate_grade_result (.obj [("criteria", .obj ((k, e) :: cs)), ("general_feedback", gfb)]) rubric =
        (match validateLoop ((k, e) :: cs) rubric [] 0 with
         | .error e' => .error e'
         | .ok (d, t) => .ok { criteria := d, total := t, general_feedback := gfb }) := rfl
    have e2 : validate_grade_result (.obj [("criteria", .obj cs), ("general_feedback", gfb)]) rubric =
        (match validateLoop cs rubric [] 0 with
         | .error e' => .error e'
         | .ok (d, t) => .ok { criteria := d, total := t, general_feedback := gfb }) := rfl
    rw [e1, e2, validateLoop_congr cs k e rubric [] 0]
    intro c hc hck
    exact hk (hck ▸ List.mem_map.mpr ⟨c, hc, rfl⟩)
  · intro g hok
    simp only [validate_grade_result] at hok
    split at hok
    · rename_i criteria' hcrit
      split at hok
      · cases hok
      · rename_i d t hloop
        obtain ⟨hkeys, -, -, -⟩ :=
          validateLoop_spec criteria' rubric [] 0 (by simpa using hids) (by simp [sumScores]) d t hloop
        cases hok
        simpa using hkeys
    · cases hok

/-- Witness for C10: an extra key zz in the response criteria leaves the
validated result unchanged. -/
theorem C10_extra_keys_discarded_witness :
    ((rubricOne.map Criterion.id).Nodup ∧ "zz" ∉ rubricOne.map Criterion.id) ∧
    validate_grade_result
        (.obj [("criteria", .obj [("zz", .num 3), ("c1", .obj [("score", .num 4)])]),
               ("general_feedback", .str "ok")]) rubricOne =
      validate_grade_result
        (.obj [("criteria", .obj [("c1", .obj [("score", .num 4)])]),
               ("general_feedback", .str "ok")]) rubricOne := by
  refine ⟨⟨by decide, by decide⟩, ?_⟩
  exact (C10_extra_keys_discarded rubricOne [("c1", .obj [("score", .num 4)])]
    "zz" (.num 3) (.str "ok") (by decide) (by decide)).1

/-- Claim C4, amended: the parser strips whitespace and fences, tries a
direct parse, then the first greedy brace span, and recovers the object
from the three spec inputs; when both attempts fail it raises a
ValueError carrying the fixed message "Could not parse JSON response from
AI" rather than the original raw text. -/
theorem C4_parser_behaviour (raw : String) :
    parse_json_response "\x7b\"a\":1\x7d" = .ok (.obj [("a", .num 1)]) ∧
    parse_json_response " ```json\n\x7b\"a\":1\x7d\n``` " = .ok (.obj [("a", .num 1)]) ∧
    parse_json_response "here is the grade: \x7b\"a\":1\x7d thanks" = .ok (.obj [("a", .num 1)]) ∧
    parse_json_response "not json at all" = .error "Could not parse JSON response from AI" ∧
    (∀ j, json_loads (stripFences (pyStrip raw)) = some j → parse_json_response raw = .ok j) ∧
    (json_loads (stripFences (pyStrip raw)) = none →
      ∀ sub, findJsonSpan (stripFences (pyStrip raw)) = some sub →
        parse_json_response raw =
          (match json_loads sub with
           | some j => .ok j
           | none => .error "Could not parse JSON response from AI")) ∧
    (json_loads (stripFences (pyStrip raw)) = none →
      findJsonSpan (stripFences (pyStrip raw)) = none →
      parse_json_response raw = .error "Could not parse JSON response from AI") := by
  refine ⟨rfl, rfl, rfl, rfl, ?_, ?_, ?_⟩
  · intro j h
    simp only [parse_json_response, h]
  · intro h sub hs
    simp only [parse_json_response, h, hs]
  · intro h hn
    simp only [parse_json_response, h, hn]

/-- Counterexample for C4 as stated: the failure value carries only the
fixed exception message, which does not contain the original raw text. -/
theorem C4_counterexample :
    parse_json_response "not json at all" = .error "Could not parse JSON response from AI" ∧
    occursIn "not json at all" "Could not parse JSON response from AI" = false :=
  ⟨rfl, rfl⟩

/-- Witness for C4 on an input where both parse attempts fail. -/
theorem C4_parser_behaviour_witness :
    json_loads (stripFences (pyStrip "yo")) = none ∧
    findJsonSpan (stripFences (pyStrip "yo")) = none ∧
    parse_json_response "yo" = .error "Could not parse JSON response from AI" :=
  ⟨rfl, rfl, (C4_parser_behaviour "yo").2.2.2.2.2.2 rfl rfl⟩

/-- Claim C3. When the extracted text is empty or starts with a bracket
marker, grade_submission returns the sentinel empty grade with message
"Unable to read submission files", zero scores for every rubric
criterion, the error key set, and makes no model call. -/
theorem C3_short_circuit (response : Except String String) (files : List SubFile)
    (rubric : List Criterion)
    (h : extract_text_from_files files = "" ∨
      startsWithL (extract_text_from_files files).toList ['['] = true) :
    grade_submission response files rubric =
      (create_empty_grade rubric "Unable to read submission files", 0) ∧
    (create_empty_grade rubric "Unable to read submission files").error = true ∧
    (create_empty_grade rubric "Unable to read submission files").general_feedback =
      .str "Unable to read submission files" ∧
    ∀ c ∈ rubric,
      (create_empty_grade rubric "Unable to read submission files").criteria.lookup c.id =
        some { score := 0, feedback := .str "Unable to grade" } := by
  refine ⟨?_, rfl, rfl, ?_⟩
  · simp only [grade_submission]
    rw [if_pos h]
  · intro c hc
    exact lookup_of_const_values _ c.id _ (emptyLoop_mem_keys rubric [] c hc)
      (emptyLoop_const rubric [] (by simp))

/-- Witness for C3 with the empty file list: extraction yields the empty
string and the grader short-circuits without a model call. -/
theorem C3_short_circuit_witness :
    extract_text_from_files [] = "" ∧
    grade_submission (.ok "ignored") [] rubricOne =
      (create_empty_grade rubricOne "Unable to read submission files", 0) :=
  ⟨rfl, (C3_short_circuit (.ok "ignored") [] rubricOne (Or.inl rfl)).1⟩

/-- Claim C7. The fairness reviewer is total: an error grade is skipped
with no model call, a failed model call is converted to a Review-skipped
result, and a parse failure is converted to a Review-skipped result, in
all cases with flagged false instead of an exception. -/
theorem C7_review_never_fails (response : Except String String) (files : List SubFile)
    (rubric : List Criterion) (g : GradeResult) :
    (g.error = true →
      fairness_review response files rubric g =
        ([("flagged", .bool false), ("message", .str "Skipped - grading error")], 0)) ∧
    (g.error = false → ∀ e, response = .error e →
      fairness_review response files rubric g =
        ([("flagged", .bool false), ("message", .str ("Review skipped: " ++ e))], 1)) ∧
    (g.error = false → ∀ raw e, response = .ok raw →
      parse_json_response (pyStrip raw) = .error e →
      fairness_review response files rubric g =
        ([("flagged", .bool false), ("message", .str ("Review skipped: " ++ e))], 1)) := by
  refine ⟨?_, ?_, ?_⟩
  · intro h
    simp [fairness_review, h]
  · intro h e hresp
    subst hresp
    simp [fairness_review, h]
  · intro h raw e hresp hparse
    subst hresp
    simp [fairness_review, h, hparse]

/-- Witness for C7 on a sentinel error grade: the reviewer skips it and
makes zero model calls. -/
theorem C7_review_never_fails_witness :
    (create_empty_grade rubricOne "m").error = true ∧
    fairness_review (.ok "irrelevant") [] rubricOne (create_empty_grade rubricOne "m") =
      ([("flagged", .bool false), ("message", .str "Skipped - grading error")], 0) :=
  ⟨rfl, (C7_review_never_fails (.ok "irrelevant") [] rubricOne
    (create_empty_grade rubricOne "m")).1 rfl⟩

/-- Counterexample for C9 as stated: a parsed reviewer response may report
any confidence value; 7 is passed through unvalidated and lies outside the
unit interval. -/
theorem C9_counterexample :
    parse_json_response (pyStrip confidence7) =
      .ok (.obj [("flagged", .bool false), ("confidence", .num 7)]) ∧
    (fairness_review (.ok confidence7) [] [] plainGrade).1.lookup "confidence" =
      some (.num 7) ∧
    ¬ ((7 : Rat) ≤ 1) := by
  refine ⟨rfl, rfl, by norm_num⟩

/-- Claim C9, amended: the confidence field of a successfully parsed
review equals the value reported by the model when the confidence key is
present, with no range validation, and defaults to 0.5 when absent. -/
theorem C9_confidence_passthrough (response : Except String String) (files : List SubFile)
    (rubric : List Criterion) (g : GradeResult) (raw : String) (fs : List (String × Json))
    (hg : g.error = false) (hresp : response = .ok raw)
    (hparse : parse_json_response (pyStrip raw) = .ok (.obj fs)) :
    (fairness_review response files rubric g).1.lookup "confidence" =
      some ((fs.lookup "confidence").getD (.num (1 / 2))) := by
  subst hresp
  simp [fairness_review, hg, hparse, List.lookup, String.reduceBEq]

/-- Witness for C9: the out-of-range confidence 7 is stored unchanged. -/
theorem C9_confidence_passthrough_witness :
    (plainGrade.error = false ∧
      parse_json_response (pyStrip confidence7) =
        .ok (.obj [("flagged", .bool false), ("confidence", .num 7)])) ∧
    (fairness_review (.ok confidence7) [] [] plainGrade).1.lookup "confidence" =
      some (.num 7) := by
  refine ⟨⟨rfl, rfl⟩, ?_⟩
  have h := C9_confidence_passthrough (.ok confidence7) [] [] plainGrade confidence7
    [("flagged", .bool false), ("confidence", .num 7)] rfl rfl rfl
  rw [h]
  rfl

theorem append_ne_empty_left (s t : String) (h : s ≠ "") : s ++ t ≠ "" := by
  cases s with
  | mk ds =>
    cases t with
    | mk dt =>
      cases ds with
      | nil => exact absurd rfl h
      | cons c cs =>
        intro he
        have hd := congrArg String.data he
        simp at hd

theorem extractLoop_eq_filterMap : ∀ (files : List SubFile) (acc : List String),
    extractLoop files acc = acc ++ files.filterMap fileBlock := by
  intro files
  induction files with
  | nil => intro acc; simp [extractLoop]
  | cons f rest ih =>
    intro acc
    cases hx : extractOne f with
    | ok t =>
      by_cases ht : t = ""
      · subst ht
        simp only [extractLoop, hx, fileBlock, List.filterMap_cons]
        simp only [ne_eq, not_true_eq_false, if_false, ite_false, reduceIte]
        rw [ih]
      · simp only [extractLoop, hx, fileBlock, List.filterMap_cons, if_pos ht]
        rw [ih]
        simp
    | error e =>
      simp only [extractLoop, hx, fileBlock, List.filterMap_cons]
      rw [ih]
      simp

/-- Claim C8, amended: extraction is total and equals the blank-line join
of the per-file blocks, where a file contributes a marker-prefixed block
only when its text is nonempty; a txt file whose read raises contributes
the inline Error-reading marker through the per-file handler, while only
an unrecognized extension whose read fails contributes the Unable-to-read
placeholder. -/
theorem C8_extraction (files : List SubFile) (f : SubFile) (e : String) :
    extract_text_from_files files = joinWith "\n\n" (files.filterMap fileBlock) ∧
    (hasExt f.path ".pdf" = false → hasExt f.path ".docx" = false →
      hasExt f.path ".txt" = true → f.textRead = .error e →
      fileBlock f = some ("[Error reading " ++ basename f.path ++ ": " ++ e ++ "]")) ∧
    (hasExt f.path ".pdf" = false → hasExt f.path ".docx" = false →
      hasExt f.path ".txt" = false → f.textRead = .error e →
      fileBlock f =
        some ("--- File: " ++ basename f.path ++ " ---\n" ++
          ("[Unable to read file: " ++ basename f.path ++ "]"))) := by
  refine ⟨?_, ?_, ?_⟩
  · unfold extract_text_from_files
    rw [extractLoop_eq_filterMap]
    simp
  · intro h1 h2 h3 herr
    simp [fileBlock, extractOne, h1, h2, h3, herr]
  · intro h1 h2 h3 herr
    simp only [fileBlock, extractOne, h1, h2, h3, herr]
    simp only [Bool.false_eq_true, if_false, reduceIte]
    have hne : ("[Unable to read file: " ++ basename f.path ++ "]") ≠ "" := by
      apply append_ne_empty_left
      apply append_ne_empty_left
      intro hcontra
      have hd := congrArg String.data hcontra
      simp at hd
    rw [if_pos hne]

/-- Counterexample for C8 as stated: a txt file that fails to decode
surfaces as an Error-reading marker, not the Unable-to-read placeholder,
and a file with empty text contributes no marker at all. -/
theorem C8_counterexample :
    extract_text_from_files [{ path := "essay.txt", textRead := .error "invalid utf-8" }] =
      "[Error reading essay.txt: invalid utf-8]" ∧
    occursIn "[Unable to read file" "[Error reading essay.txt: invalid utf-8]" = false ∧
    extract_text_from_files [{ path := "blank.txt", textRead := .ok "" }] = "" :=
  ⟨rfl, rfl, rfl⟩

/-- Witness for C8 on an unrecognized extension whose read fails: the
Unable-to-read placeholder appears under the File marker. -/
theorem C8_extraction_witness :
    (hasExt "data.bin" ".pdf" = false ∧ hasExt "data.bin" ".docx" = false ∧
      hasExt "data.bin" ".txt" = false) ∧
    fileBlock { path := "data.bin", textRead := .error "boom" } =
      some ("--- File: data.bin ---\n[Unable to read file: data.bin]") := by
  refine ⟨⟨rfl, rfl, rfl⟩, ?_⟩
  have h := (C8_extraction [] { path := "data.bin", textRead := .error "boom" } "boom").2.2
    rfl rfl rfl rfl
  rw [h]
  rfl

theorem getLastD_append_pair {α : Type} (x y : α) :
    ∀ (l : List α) (d : α), (l ++ [x, y]).getLastD d = y := by
  intro l
  induction l with
  | nil => intro d; rfl
  | cons a rest ih =>
    intro d
    rw [List.cons_append, List.getLastD_cons]
    exact ih a

theorem runSubs_preserve (rubric : List Criterion) :
    ∀ (subs : List SubmissionEnv) (i : Nat) (jr : JobRecord) (grades : List (String × MergedGrade)),
      (∀ st ∈ (runSubs rubric subs i jr grades).1,
        st.status = jr.status ∧ st.progress.total = jr.progress.total ∧
        st.result = jr.result ∧ st.error = jr.error) ∧
      ((runSubs rubric subs i jr grades).2.1.status = jr.status ∧
       (runSubs rubric subs i jr grades).2.1.progress.total = jr.progress.total ∧
       (runSubs rubric subs i jr grades).2.1.result = jr.result ∧
       (runSubs rubric subs i jr grades).2.1.error = jr.error) := by
  intro subs
  induction subs with
  | nil =>
    intro i jr grades
    refine ⟨?_, rfl, rfl, rfl, rfl⟩
    intro st hst
    simp [runSubs] at hst
  | cons s rest ih =>
    intro i jr grades
    cases hd : s.download with
    | error e =>
      refine ⟨?_, ?_⟩
      · intro st hst
        simp only [runSubs, hd, List.mem_cons, List.not_mem_nil, or_false] at hst
        rcases hst with rfl | rfl
        · exact ⟨rfl, rfl, rfl, rfl⟩
        · exact ⟨rfl, rfl, rfl, rfl⟩
      · simp only [runSubs, hd]
        exact ⟨rfl, rfl, rfl, rfl⟩
    | ok files =>
      have key := ih (i + 1) (setStudent (bumpCurrent jr i) s i)
        (dictInsert grades s.sub.id (mergedOf rubric s files))
      refine ⟨?_, ?_⟩
      · intro st hst
        simp only [runSubs, hd, List.mem_cons] at hst
        rcases hst with rfl | rfl | h
        · exact ⟨rfl, rfl, rfl, rfl⟩
        · exact ⟨rfl, rfl, rfl, rfl⟩
        · exact key.1 st h
      · simp only [runSubs, hd]
        exact key.2

theorem runSubs_getLast (rubric : List Criterion) :
    ∀ (subs : List SubmissionEnv) (i : Nat) (jr : JobRecord) (grades : List (String × MergedGrade)),
      (jr :: (runSubs rubric subs i jr grades).1).getLast? =
        some (runSubs rubric subs i jr grades).2.1 := by
  intro subs
  induction subs with
  | nil => intro i jr grades; rfl
  | cons s rest ih =>
    intro i jr grades
    cases hd : s.download with
    | error e =>
      simp only [runSubs, hd]
      rfl
    | ok files =>
      simp only [runSubs, hd]
      rw [List.getLast?_cons_cons, List.getLast?_cons_cons]
      exact ih (i + 1) _ _

theorem runSubs_err (rubric : List Criterion) :
    ∀ (subs : List SubmissionEnv) (i : Nat) (jr : JobRecord)
      (grades : List (String × MergedGrade)) (e : String),
      firstDownloadErr subs = some e →
      (runSubs rubric subs i jr grades).2.2 = .error e := by
  intro subs
  induction subs with
  | nil =>
    intro i jr grades e h
    simp [firstDownloadErr] at h
  | cons s rest ih =>
    intro i jr grades e h
    cases hd : s.download with
    | error e' =>
      rw [firstDownloadErr, hd] at h
      cases h
      simp only [runSubs, hd]
    | ok files =>
      rw [firstDownloadErr, hd] at h
      simp only [runSubs, hd]
      exact ih (i + 1) _ _ e h

theorem runSubs_ok (rubric : List Criterion) :
    ∀ (subs : List SubmissionEnv) (i : Nat) (jr : JobRecord) (grades : List (String × MergedGrade)),
      (∀ s ∈ subs, isOkE s.download = true) →
      jr.progress.current = i →
      (∃ gs, (runSubs rubric subs i jr grades).2.2 = .ok gs) ∧
      (runSubs rubric subs i jr grades).2.1.progress.current = i + subs.length ∧
      List.Chain' (fun x y => x.progress.current ≤ y.progress.current)
        (jr :: (runSubs rubric subs i jr grades).1) ∧
      (∀ k, i + 1 ≤ k → k ≤ i + subs.length →
        ∃ st ∈ (runSubs rubric subs i jr grades).1, st.progress.current = k) := by
  intro subs
  induction subs with
  | nil =>
    intro i jr grades _ hcur
    refine ⟨⟨grades, rfl⟩, by simpa [runSubs] using hcur, ?_, ?_⟩
    · simp [runSubs]
    · intro k h1 h2
      simp only [List.length_nil] at h2
      omega
  | cons s rest ih =>
    intro i jr grades hall hcur
    have hds : isOkE s.download = true := hall s (by simp)
    cases hd : s.download with
    | error e => rw [hd] at hds; simp [isOkE] at hds
    | ok files =>
      have hrest : ∀ s' ∈ rest, isOkE s'.download = true :=
        fun s' hs' => hall s' (List.mem_cons_of_mem _ hs')
      have hc2 : (setStudent (bumpCurrent jr i) s i).progress.current = i + 1 := rfl
      obtain ⟨hok, hcurF, hchain, hcov⟩ :=
        ih (i + 1) (setStudent (bumpCurrent jr i) s i)
          (dictInsert grades s.sub.id (mergedOf rubric s files)) hrest hc2
      refine ⟨?_, ?_, ?_, ?_⟩
      · simp only [runSubs, hd]
        exact hok
      · simp only [runSubs, hd, List.length_cons]
        omega
      · simp only [runSubs, hd]
        refine List.chain'_cons.mpr ⟨?_, List.chain'_cons.mpr ⟨?_, ?_⟩⟩
        · show jr.progress.current ≤ (bumpCurrent jr i).progress.current
          have hb : (bumpCurrent jr i).progress.current = i + 1 := rfl
          omega
        · show (bumpCurrent jr i).progress.current ≤ (setStudent (bumpCurrent jr i) s i).progress.current
          have hb : (bumpCurrent jr i).progress.current = i + 1 := rfl
          omega
        · exact hchain
      · intro k h1 h2
        simp only [List.length_cons] at h2
        simp only [runSubs, hd]
        by_cases hk : k = i + 1
        · refine ⟨bumpCurrent jr i, by simp, ?_⟩
          have hb : (bumpCurrent jr i).progress.current = i + 1 := rfl
          omega
        · obtain ⟨st, hmem, hcst⟩ := hcov k (by omega) (by omega)
          exact ⟨st, by simp [hmem], hcst⟩

/-- Claim C5. When any uncaught exception occurs during a job run, the
final job record has status failed, carries the exception message in its
error field, and the result field stays null in every observable state:
grades of submissions completed before the failure are not preserved. -/
theorem C5_failure (env : JobEnv) (e : String) (h : envFailure env = some e) :
    ((initJobRecord :: run_grading_job env initJobRecord).getLastD initJobRecord).status = .failed ∧
    ((initJobRecord :: run_grading_job env initJobRecord).getLastD initJobRecord).error = some e ∧
    ∀ st ∈ initJobRecord :: run_grading_job env initJobRecord, st.result = none := by
  cases hi : env.init with
  | error e0 =>
    rw [envFailure, hi] at h
    cases h
    simp only [run_grading_job, hi, failTrace]
    refine ⟨rfl, rfl, ?_⟩
    intro st hst
    simp only [List.mem_cons, List.not_mem_nil, or_false] at hst
    rcases hst with rfl | rfl | rfl | rfl <;> rfl
  | ok u =>
    cases ha : env.assignment with
    | error e0 =>
      rw [envFailure, hi, ha] at h
      cases h
      simp only [run_grading_job, hi, ha, failTrace]
      refine ⟨rfl, rfl, ?_⟩
      intro st hst
      simp only [List.mem_cons, List.not_mem_nil, or_false] at hst
      rcases hst with rfl | rfl | rfl | rfl <;> rfl
    | ok a =>
      cases hr : env.rubric with
      | error e0 =>
        rw [envFailure, hi, ha, hr] at h
        cases h
        simp only [run_grading_job, hi, ha, hr, failTrace]
        refine ⟨rfl, rfl, ?_⟩
        intro st hst
        simp only [List.mem_cons, List.not_mem_nil, or_false] at hst
        rcases hst with rfl | rfl | rfl | rfl <;> rfl
      | ok r =>
        cases hs : env.submissions with
        | error e0 =>
          rw [envFailure, hi, ha, hr, hs] at h
          cases h
          simp only [run_grading_job, hi, ha, hr, hs, failTrace]
          refine ⟨rfl, rfl, ?_⟩
          intro st hst
          simp only [List.mem_cons, List.not_mem_nil, or_false] at hst
          rcases hst with rfl | rfl | rfl | rfl <;> rfl
        | ok subs =>
          rw [envFailure, hi, ha, hr, hs] at h
          have herr := runSubs_err r subs 0
            (withTotal (runningRec initJobRecord) subs.length) [] e h
          obtain ⟨presS, presF⟩ := runSubs_preserve r subs 0
            (withTotal (runningRec initJobRecord) subs.length) []
          simp only [run_grading_job, hi, ha, hr, hs, herr, failTrace]
          rw [← List.cons_append, getLastD_append_pair]
          refine ⟨rfl, rfl, ?_⟩
          intro st hst
          simp only [List.mem_append, List.mem_cons, List.not_mem_nil, or_false] at hst
          rcases hst with ((rfl | rfl | rfl | hmem) | (rfl | rfl))
          · rfl
          · rfl
          · rfl
          · exact (presS st hmem).2.2.1
          · exact presF.2.2.1
          · exact presF.2.2.1

/-- Witness for C5: a three-submission job whose second download raises
ends failed with the exception message and a null result. -/
theorem C5_failure_witness :
    envFailure envFail = some "boom" ∧
    ((initJobRecord :: run_grading_job envFail initJobRecord).getLastD initJobRecord).status = .failed ∧
    ((initJobRecord :: run_grading_job envFail initJobRecord).getLastD initJobRecord).error =
      some "boom" := by
  refine ⟨rfl, ?_, ?_⟩
  · exact (C5_failure envFail "boom" rfl).1
  · exact (C5_failure envFail "boom" rfl).2.1

/-- Claim C6. A job whose worker loop hits no uncaught exception moves
pending, then running, then completed, in that order; progress.total is
the number of submissions; progress.current never decreases and takes
every value from 1 to the number of submissions; and a completed status
is only visible with the progress counter at its final value. -/
theorem C6_lifecycle (env : JobEnv) (h : env.noException = true) :
    (∃ m, (initJobRecord :: run_grading_job env initJobRecord).map (fun st => st.status) =
      .pending :: (List.replicate m .running ++ [.completed, .completed])) ∧
    ((initJobRecord :: run_grading_job env initJobRecord).getLastD initJobRecord).progress.total =
      envTotal env ∧
    List.Chain' (fun x y => x.progress.current ≤ y.progress.current)
      (initJobRecord :: run_grading_job env initJobRecord) ∧
    (∀ k, 1 ≤ k → k ≤ envTotal env →
      ∃ st ∈ initJobRecord :: run_grading_job env initJobRecord, st.progress.current = k) ∧
    (∀ st ∈ initJobRecord :: run_grading_job env initJobRecord,
      st.status = .completed → st.progress.current = envTotal env) := by
  simp only [JobEnv.noException, Bool.and_eq_true] at h
  obtain ⟨⟨⟨h1, h2⟩, h3⟩, h4⟩ := h
  cases hi : env.init with
  | error e0 => rw [hi] at h1; simp [isOkE] at h1
  | ok u =>
  cases ha : env.assignment with
  | error e0 => rw [ha] at h2; simp [isOkE] at h2
  | ok a =>
  cases hr : env.rubric with
  | error e0 => rw [hr] at h3; simp [isOkE] at h3
  | ok r =>
  cases hs : env.submissions with
  | error e0 => rw [hs] at h4; simp at h4
  | ok subs =>
  rw [hs] at h4
  simp only [List.all_eq_true] at h4
  have hc0 : (withTotal (runningRec initJobRecord) subs.length).progress.current = 0 := rfl
  obtain ⟨⟨gs, hgs⟩, hcurF, hchain, hcov⟩ :=
    runSubs_ok r subs 0 (withTotal (runningRec initJobRecord) subs.length) [] h4 hc0
  obtain ⟨presS, presF⟩ :=
    runSubs_preserve r subs 0 (withTotal (runningRec initJobRecord) subs.length) []
  have hlast :=
    runSubs_getLast r subs 0 (withTotal (runningRec initJobRecord) subs.length) []
  simp only [run_grading_job, hi, ha, hr, hs, hgs]
  refine ⟨?_, ?_, ?_, ?_, ?_⟩
  · refine ⟨(runSubs r subs 0 (withTotal (runningRec initJobRecord) subs.length) []).1.length + 2, ?_⟩
    have hmap : ((runSubs r subs 0 (withTotal (runningRec initJobRecord) subs.length) []).1.map
        (fun st => st.status)) =
        List.replicate
          (runSubs r subs 0 (withTotal (runningRec initJobRecord) subs.length) []).1.length
          Status.running := by
      have hm := List.eq_replicate_of_mem
        (l := (runSubs r subs 0 (withTotal (runningRec initJobRecord) subs.length) []).1.map
          (fun st => st.status))
        (a := Status.running) ?_
      · simpa [List.length_map] using hm
      · intro b hb
        obtain ⟨st, hstm, rfl⟩ := List.mem_map.mp hb
        exact ((presS st hstm).1).trans rfl
    simp only [List.map_cons, List.map_append, List.map_cons, List.map_nil, hmap,
      List.replicate_succ]
    rfl
  · rw [← List.cons_append, getLastD_append_pair]
    have ht : (withResult
        (completedRec (runSubs r subs 0 (withTotal (runningRec initJobRecord) subs.length) []).2.1)
        (jobResultOf a r subs gs)).progress.total =
        (runSubs r subs 0 (withTotal (runningRec initJobRecord) subs.length) []).2.1.progress.total := rfl
    rw [ht, presF.2.1]
    simp [envTotal, hs, withTotal]
  · rw [← List.cons_append]
    apply List.chain'_append.mpr
    refine ⟨?_, ?_, ?_⟩
    · refine List.chain'_cons.mpr ⟨Nat.le.refl, List.chain'_cons.mpr ⟨Nat.le.refl, hchain⟩⟩
    · exact List.chain'_pair.mpr Nat.le.refl
    · intro x hx y hy
      rw [List.getLast?_cons_cons, List.getLast?_cons_cons, hlast] at hx
      cases hx
      simp only [List.head?_cons] at hy
      cases hy
      exact Nat.le.refl
  · intro k hk1 hk2
    simp only [envTotal, hs] at hk2
    obtain ⟨st, hmem, hcst⟩ := hcov k (by omega) (by omega)
    exact ⟨st, by simp [hmem], hcst⟩
  · rw [← List.cons_append]
    intro st hst hcomp
    simp only [List.mem_append, List.mem_cons, List.not_mem_nil, or_false] at hst
    have hfin : (runSubs r subs 0 (withTotal (runningRec initJobRecord) subs.length)
        []).2.1.progress.current = envTotal env := by
      simp only [envTotal, hs]
      omega
    rcases hst with ((rfl | rfl | rfl | hmem) | (rfl | rfl))
    · cases hcomp
    · cases hcomp
    · cases hcomp
    · rw [(presS st hmem).1] at hcomp
      cases hcomp
    · exact hfin
    · exact hfin

/-- Witness for C6: a three-submission job with no failures keeps its
progress counter nondecreasing across every observable state. -/
theorem C6_lifecycle_witness :
    envOk.noException = true ∧
    List.Chain' (fun x y => x.progress.current ≤ y.progress.current)
      (initJobRecord :: run_grading_job envOk initJobRecord) := by
  refine ⟨rfl, ?_⟩
  exact (C6_lifecycle envOk rfl).2.2.1
